/-
Verification of `scripts/extract_arxiv.py` (mobylabs).

The script's one operation, `extract_first_n_objects(input_file, output_file, n)`,
reads an input file line by line, parses up to `n` lines as JSON (skipping and
warning about malformed lines), and writes the collected values as a JSON array
to the output file.

Shallow embedding choices:
* An input file is a `List String` of its lines; `n` is `Int` (Python `int`,
  possibly negative via `int(sys.argv[1])`).
* `json.loads` is embedded as `json_loads : String → Except String J`, a
  fuel-based parser of the JSON grammar as implemented by Python's `json`
  module (including the `NaN`/`Infinity`/`-Infinity` extensions). JSON numbers
  are kept as their source lexeme (`J.num "1.5e3"`) rather than as IEEE floats,
  so no floating point enters the model; no claim inspects numeric values.
* `str.strip()` is embedded as `pyStrip` (ASCII whitespace).
* Each `print` becomes an `Event` in an emitted trace: the start banner, one
  `warning` per malformed line (with its 1-based number and the parser's error
  text), a `progress` event, and the `writing`/`done` messages.
* `json.dump(objects, outfile, indent=2, ensure_ascii=False)` is modelled at
  the JSON-value level: the output file's content, viewed through `json.loads`,
  is the value `J.arr objects` (value-level round-tripping of `dump`/`loads`
  is the documented contract of Python's stdlib `json`, external to this repo).
* The Python function body ends without a `return` statement, so its return
  value is `None`, embedded as `ret := none`.
* For the file-access claims, `runExtract` takes `Option (List String)`
  (`none` = the input file cannot be opened, so `open` raises) and also
  returns the trace of file-system actions the run performs.
-/
import Mathlib

/-- A JSON value as produced by `json.loads`. Numbers are kept as their source
lexeme to stay exact (Python would produce `int`/`float`); objects are the
ordered member list. -/
inductive J where
  | null
  | bool (b : Bool)
  | num (lexeme : String)
  | str (s : String)
  | arr (elems : List J)
  | obj (members : List (String × J))

/-- JSON's insignificant whitespace (RFC 8259 / Python `json`). -/
def isJsonWs (c : Char) : Bool :=
  match c with
  | ' ' => true
  | '\t' => true
  | '\n' => true
  | '\r' => true
  | _ => false

/-- Value of a hex digit, if it is one (for `\uXXXX` escapes). -/
def hexVal (c : Char) : Option Nat :=
  let u := c.toNat
  if 48 ≤ u && u ≤ 57 then some (u - 48)
  else if 97 ≤ u && u ≤ 102 then some (u - 87)
  else if 65 ≤ u && u ≤ 70 then some (u - 55)
  else none

/-- Scan the body of a JSON string after the opening quote, decoding escapes;
returns the decoded characters and the input after the closing quote. -/
def parseStringChars : Nat → List Char → List Char → Except String (List Char × List Char)
  | 0, _, _ => .error "out of fuel"
  | _ + 1, _, [] => .error "Unterminated string"
  | fuel + 1, acc, c :: cs =>
    if c == '"' then .ok (acc.reverse, cs)
    else if c == '\\' then
      match cs with
      | [] => .error "Unterminated string"
      | e :: cs2 =>
        if e == '"' then parseStringChars fuel ('"' :: acc) cs2
        else if e == '\\' then parseStringChars fuel ('\\' :: acc) cs2
        else if e == '/' then parseStringChars fuel ('/' :: acc) cs2
        else if e == 'b' then parseStringChars fuel (Char.ofNat 8 :: acc) cs2
        else if e == 'f' then parseStringChars fuel (Char.ofNat 12 :: acc) cs2
        else if e == 'n' then parseStringChars fuel ('\n' :: acc) cs2
        else if e == 'r' then parseStringChars fuel ('\r' :: acc) cs2
        else if e == 't' then parseStringChars fuel ('\t' :: acc) cs2
        else if e == 'u' then
          match cs2 with
          | h1 :: h2 :: h3 :: h4 :: cs3 =>
            match hexVal h1, hexVal h2, hexVal h3, hexVal h4 with
            | some a, some b, some c3, some d =>
              parseStringChars fuel (Char.ofNat (((a * 16 + b) * 16 + c3) * 16 + d) :: acc) cs3
            | _, _, _, _ => .error "Invalid \\uXXXX escape"
          | _ => .error "Invalid \\uXXXX escape"
        else .error "Invalid \\escape"
    else if c.toNat < 32 then .error "Invalid control character"
    else parseStringChars fuel (c :: acc) cs

/-- The integer part of a JSON number: `0`, or a nonzero digit then digits. -/
def parseIntPart (cs : List Char) : Option (List Char × List Char) :=
  match cs with
  | [] => none
  | '0' :: rest => some (['0'], rest)
  | c :: rest =>
    if c.isDigit then
      some (c :: rest.takeWhile Char.isDigit, rest.dropWhile Char.isDigit)
    else none

/-- The optional fraction part `.digits` of a JSON number lexeme (like the
`(?:\.\d+)?` group of Python's NUMBER_RE: consumed only when complete). -/
def parseFracPart (cs : List Char) : Option (List Char × List Char) :=
  match cs with
  | '.' :: rest =>
    if (rest.takeWhile Char.isDigit).isEmpty then none
    else some ('.' :: rest.takeWhile Char.isDigit, rest.dropWhile Char.isDigit)
  | _ => none

/-- The optional exponent part `[eE][+-]?digits` of a JSON number lexeme. -/
def parseExpPart (cs : List Char) : Option (List Char × List Char) :=
  match cs with
  | e :: rest =>
    if e == 'e' || e == 'E' then
      let (sgn, rest2) : List Char × List Char :=
        match rest with
        | '+' :: r => (['+'], r)
        | '-' :: r => (['-'], r)
        | r => ([], r)
      if (rest2.takeWhile Char.isDigit).isEmpty then none
      else some (e :: (sgn ++ rest2.takeWhile Char.isDigit), rest2.dropWhile Char.isDigit)
    else none
  | [] => none

/-- A maximal JSON number lexeme at the head of the input (Python's NUMBER_RE). -/
def parseNumber (cs : List Char) : Option (List Char × List Char) :=
  let (negPart, cs1) : List Char × List Char :=
    match cs with
    | '-' :: r => (['-'], r)
    | r => ([], r)
  match parseIntPart cs1 with
  | none => none
  | some (ip, cs2) =>
    let (fp, cs3) := (parseFracPart cs2).getD ([], cs2)
    let (ep, cs4) := (parseExpPart cs3).getD ([], cs3)
    some (negPart ++ ip ++ fp ++ ep, cs4)

mutual

/-- Parse one JSON value at the head of the input (whitespace-tolerant), as
Python's `json` scanner does; `fuel` only bounds recursion depth. -/
def parseValue : Nat → List Char → Except String (J × List Char)
  | 0, _ => .error "out of fuel"
  | fuel + 1, cs0 =>
    match cs0.dropWhile isJsonWs with
    | [] => .error "Expecting value"
    | 'n' :: 'u' :: 'l' :: 'l' :: rest => .ok (J.null, rest)
    | 't' :: 'r' :: 'u' :: 'e' :: rest => .ok (J.bool true, rest)
    | 'f' :: 'a' :: 'l' :: 's' :: 'e' :: rest => .ok (J.bool false, rest)
    | 'N' :: 'a' :: 'N' :: rest => .ok (J.num "NaN", rest)
    | 'I' :: 'n' :: 'f' :: 'i' :: 'n' :: 'i' :: 't' :: 'y' :: rest =>
      .ok (J.num "Infinity", rest)
    | '-' :: 'I' :: 'n' :: 'f' :: 'i' :: 'n' :: 'i' :: 't' :: 'y' :: rest =>
      .ok (J.num "-Infinity", rest)
    | '"' :: rest =>
      match parseStringChars (rest.length + 1) [] rest with
      | .error e => .error e
      | .ok (chars, rest2) => .ok (J.str (String.mk chars), rest2)
    | '[' :: rest =>
      match rest.dropWhile isJsonWs with
      | ']' :: rest2 => .ok (J.arr [], rest2)
      | rest2 => parseArrayLoop fuel rest2 []
    | '{' :: rest =>
      match rest.dropWhile isJsonWs with
      | '}' :: rest2 => .ok (J.obj [], rest2)
      | rest2 => parseObjectLoop fuel rest2 []
    | cs =>
      match parseNumber cs with
      | some (lexeme, rest) => .ok (J.num (String.mk lexeme), rest)
      | none => .error "Expecting value"

/-- After `[` (and not `]`): parse a value, then `,` to continue or `]` to end. -/
def parseArrayLoop : Nat → List Char → List J → Except String (J × List Char)
  | 0, _, _ => .error "out of fuel"
  | fuel + 1, cs, acc =>
    match parseValue fuel cs with
    | .error e => .error e
    | .ok (v, rest) =>
      match rest.dropWhile isJsonWs with
      | ',' :: rest2 => parseArrayLoop fuel rest2 (v :: acc)
      | ']' :: rest2 => .ok (J.arr (acc.reverse ++ [v]), rest2)
      | _ => .error "Expecting comma delimiter"

/-- After `{` (and not `}`): parse a `"key": value` member, then `,` or `}`. -/
def parseObjectLoop : Nat → List Char → List (String × J) → Except String (J × List Char)
  | 0, _, _ => .error "out of fuel"
  | fuel + 1, cs, acc =>
    match cs.dropWhile isJsonWs with
    | '"' :: rest =>
      match parseStringChars (rest.length + 1) [] rest with
      | .error e => .error e
      | .ok (chars, rest2) =>
        match rest2.dropWhile isJsonWs with
        | ':' :: rest3 =>
          match parseValue fuel rest3 with
          | .error e => .error e
          | .ok (v, rest4) =>
            match rest4.dropWhile isJsonWs with
            | ',' :: rest5 => parseObjectLoop fuel rest5 ((String.mk chars, v) :: acc)
            | '}' :: rest5 => .ok (J.obj (acc.reverse ++ [(String.mk chars, v)]), rest5)
            | _ => .error "Expecting comma delimiter"
        | _ => .error "Expecting colon delimiter"
    | _ => .error "Expecting property name enclosed in double quotes"

end

/-- Embedding of `json.loads s`: parse one JSON document, allowing surrounding
whitespace, and require the input to be exhausted. -/
def json_loads (s : String) : Except String J :=
  match parseValue (2 * s.length + 2) s.toList with
  | .error e => .error e
  | .ok (v, rest) =>
    if (rest.dropWhile isJsonWs).isEmpty then .ok v else .error "Extra data"

/-- Whitespace as stripped by Python's `str.strip()` (ASCII part). -/
def isPySpace (c : Char) : Bool :=
  c == ' ' || c == '\t' || c == '\n' || c == '\r' || c == Char.ofNat 11 || c == Char.ofNat 12

/-- Embedding of Python `line.strip()`: drop leading and trailing whitespace. -/
def pyStrip (s : String) : String :=
  String.mk (((s.toList.dropWhile isPySpace).reverse.dropWhile isPySpace).reverse)

/-- `json.loads(line.strip())`, as the loop body applies it to one line. -/
def parseLine (line : String) : Except String J :=
  json_loads (pyStrip line)

/-- One `print` of the script, as an event on the status channel:
`start n` is the opening banner, `warning k e` is
`"Warning: Failed to parse line k: e"`, `progress k` is
`"  Processed k objects..."`, and `writing`/`done` carry `len(objects)`. -/
inductive Event where
  | start (n : Int)
  | warning (lineNo : Nat) (err : String)
  | progress (linesProcessed : Nat)
  | writing (count : Nat)
  | done (count : Nat)
deriving DecidableEq

/-- The `for i, line in enumerate(infile)` loop of `extract_first_n_objects`:
breaks once `i >= n`; on parse failure prints a warning and `continue`s
(skipping the progress check); on success appends and, when `(i+1) % 100 == 0`,
prints progress. Returns the collected objects and the printed events. -/
def scanLines : List String → Int → Nat → List J × List Event
  | [], _, _ => ([], [])
  | line :: rest, n, i =>
    if (i : Int) ≥ n then ([], [])
    else
      match parseLine line with
      | .error e =>
        let r := scanLines rest n (i + 1)
        (r.1, Event.warning (i + 1) e :: r.2)
      | .ok obj =>
        let r := scanLines rest n (i + 1)
        (obj :: r.1,
          (if (i + 1) % 100 == 0 then [Event.progress (i + 1)] else []) ++ r.2)

/-- Everything observable about one successful run of `extract_first_n_objects`:
the in-memory Sample, the printed events, the JSON value whose serialization is
written to the output file, and the Python return value. -/
structure ExtractRun where
  objects : List J
  events : List Event
  fileOut : J
  ret : Option Nat

/-- Embedding of `extract_first_n_objects(input_file, output_file, n)` on an
input file whose lines are `lines`: scan, then `json.dump(objects, ...)` the
collected list as one array (modelled at the value level), printing the
banner and the `writing`/`done` messages. The Python function body has no
`return` statement, so the return value is `None`. -/
def extract_first_n_objects (lines : List String) (n : Int) : ExtractRun :=
  let r := scanLines lines n 0
  { objects := r.1
    events := Event.start n :: r.2 ++ [Event.writing r.1.length, Event.done r.1.length]
    fileOut := J.arr r.1
    ret := none }

/-- A file-system action the script performs, in order. -/
inductive IOAct where
  | openInputFail
  | openInputOk
  | openOutput
  | writeOutput (v : J)

/-- The run including its interaction with the file system: `input = none`
means the input file cannot be opened, so `open(input_file)` raises and
nothing after it executes; otherwise the scan runs and the output file is
opened and written in one shot at the end. -/
def runExtract (input : Option (List String)) (n : Int) :
    Except Unit ExtractRun × List IOAct :=
  match input with
  | none => (.error (), [IOAct.openInputFail])
  | some lines =>
    let r := extract_first_n_objects lines n
    (.ok r, [IOAct.openInputOk, IOAct.openOutput, IOAct.writeOutput r.fileOut])

/-- The output file's content (as a JSON value) after a run, given its content
`prev` before the run (`none` = no such file): a failed run leaves it as it
was; a successful run overwrites it. -/
def outputFileAfter (prev : Option J) (input : Option (List String)) (n : Int) :
    Option J :=
  match runExtract input n with
  | (.error _, _) => prev
  | (.ok r, _) => some (J.arr r.objects)

/-- The values of the successfully parsed lines among the first `n`, in input
order; the spec's Sample. -/
def successValues (lines : List String) (n : Int) : List J :=
  (lines.take n.toNat).filterMap fun l => (parseLine l).toOption

/-- The warnings among a list of events: `(line number, error text)` pairs. -/
def warningsOf (evs : List Event) : List (Nat × String) :=
  evs.filterMap fun e =>
    match e with
    | Event.warning k s => some (k, s)
    | _ => none

/-- The progress messages among a list of events: the printed counts. -/
def progressOf (evs : List Event) : List Nat :=
  evs.filterMap fun e =>
    match e with
    | Event.progress k => some k
    | _ => none

@[simp] theorem warningsOf_nil : warningsOf [] = [] := rfl

@[simp] theorem warningsOf_cons_start (n : Int) (evs : List Event) :
    warningsOf (Event.start n :: evs) = warningsOf evs := rfl

@[simp] theorem warningsOf_cons_warning (k : Nat) (e : String) (evs : List Event) :
    warningsOf (Event.warning k e :: evs) = (k, e) :: warningsOf evs := rfl

@[simp] theorem warningsOf_cons_progress (k : Nat) (evs : List Event) :
    warningsOf (Event.progress k :: evs) = warningsOf evs := rfl

@[simp] theorem warningsOf_cons_writing (k : Nat) (evs : List Event) :
    warningsOf (Event.writing k :: evs) = warningsOf evs := rfl

@[simp] theorem warningsOf_cons_done (k : Nat) (evs : List Event) :
    warningsOf (Event.done k :: evs) = warningsOf evs := rfl

@[simp] theorem warningsOf_append (a b : List Event) :
    warningsOf (a ++ b) = warningsOf a ++ warningsOf b := by
  simp [warningsOf]

@[simp] theorem warningsOf_ite_progress (c : Prop) [Decidable c] (k : Nat) :
    warningsOf (if c then [Event.progress k] else []) = [] := by
  split <;> simp [warningsOf]

@[simp] theorem progressOf_nil : progressOf [] = [] := rfl

@[simp] theorem progressOf_cons_start (n : Int) (evs : List Event) :
    progressOf (Event.start n :: evs) = progressOf evs := rfl

@[simp] theorem progressOf_cons_warning (k : Nat) (e : String) (evs : List Event) :
    progressOf (Event.warning k e :: evs) = progressOf evs := rfl

@[simp] theorem progressOf_cons_progress (k : Nat) (evs : List Event) :
    progressOf (Event.progress k :: evs) = k :: progressOf evs := rfl

@[simp] theorem progressOf_cons_writing (k : Nat) (evs : List Event) :
    progressOf (Event.writing k :: evs) = progressOf evs := rfl

@[simp] theorem progressOf_cons_done (k : Nat) (evs : List Event) :
    progressOf (Event.done k :: evs) = progressOf evs := rfl

@[simp] theorem progressOf_append (a b : List Event) :
    progressOf (a ++ b) = progressOf a ++ progressOf b := by
  simp [progressOf]

/-- The Sample collected from index `i` on is the filter-map of the first
`(n - i)` remaining lines through `json.loads ∘ strip`. -/
theorem scanLines_fst (lines : List String) (n : Int) :
    ∀ i : Nat, (scanLines lines n i).1
      = ((lines.take (n - i).toNat).filterMap fun l => (parseLine l).toOption) := by
  induction lines with
  | nil => intro i; simp [scanLines]
  | cons line rest ih =>
    intro i
    by_cases h : (i : Int) ≥ n
    · have h0 : (n - i).toNat = 0 := by omega
      simp [scanLines, h, h0]
    · have h1 : (n - (i : Int)).toNat = (n - ((i : Nat) + 1 : Nat)).toNat + 1 := by
        push_cast
        omega
      rw [h1]
      cases hp : parseLine line with
      | error e => simp [scanLines, h, hp, ih (i + 1), Except.toOption]
      | ok v => simp [scanLines, h, hp, ih (i + 1), Except.toOption]

/-- Each examined line yields exactly one of: an appended object or a warning;
so objects + warnings = number of lines examined = `min` of cutoff and EOF. -/
theorem scanLines_count (lines : List String) (n : Int) :
    ∀ i : Nat, (scanLines lines n i).1.length
        + (warningsOf (scanLines lines n i).2).length
      = min (n - i).toNat lines.length := by
  induction lines with
  | nil => intro i; simp [scanLines]
  | cons line rest ih =>
    intro i
    by_cases h : (i : Int) ≥ n
    · have h0 : (n - i).toNat = 0 := by omega
      simp [scanLines, h, h0]
    · have h1 : (n - (i : Int)).toNat = (n - ((i : Nat) + 1 : Nat)).toNat + 1 := by
        push_cast
        omega
      cases hp : parseLine line with
      | error e =>
        have hr := ih (i + 1)
        simp [scanLines, h, hp]
        omega
      | ok v =>
        have hr := ih (i + 1)
        simp [scanLines, h, hp]
        omega

/-- The scan never looks beyond the first `n - i` remaining lines. -/
theorem scanLines_take (lines : List String) (n : Int) :
    ∀ i : Nat, scanLines (lines.take (n - i).toNat) n i = scanLines lines n i := by
  induction lines with
  | nil => intro i; simp
  | cons line rest ih =>
    intro i
    by_cases h : (i : Int) ≥ n
    · have h0 : (n - i).toNat = 0 := by omega
      simp [h0, scanLines, h]
    · have h1 : (n - (i : Int)).toNat = (n - ((i : Nat) + 1 : Nat)).toNat + 1 := by
        push_cast
        omega
      rw [h1, List.take_succ_cons]
      have ih2 := ih (i + 1)
      rw [Nat.cast_add, Nat.cast_one] at ih2
      cases hp : parseLine line with
      | error e => simp [scanLines, h, hp, ih2]
      | ok v => simp [scanLines, h, hp, ih2]

/-- Warnings emitted from index `i` on carry 1-based line numbers above `i`. -/
theorem scanLines_warning_lb (lines : List String) (n : Int) :
    ∀ i : Nat, ∀ w ∈ warningsOf (scanLines lines n i).2, i + 1 ≤ w.1 := by
  induction lines with
  | nil => intro i w hw; simp [scanLines] at hw
  | cons line rest ih =>
    intro i w hw
    by_cases h : (i : Int) ≥ n
    · simp [scanLines, h] at hw
    · cases hp : parseLine line with
      | error e =>
        simp [scanLines, h, hp] at hw
        rcases hw with h1 | h1
        · simp [h1]
        · have := ih (i + 1) w h1
          omega
      | ok v =>
        simp [scanLines, h, hp] at hw
        have := ih (i + 1) w hw
        omega

/-- A malformed examined line produces its warning, carrying its original
1-based line number and the parse error text. -/
theorem scanLines_warning_mem (lines : List String) (n : Int) (e : String) :
    ∀ (i k : Nat) (hk : k < lines.length),
      ((i + k : Nat) : Int) < n →
      parseLine (lines.get ⟨k, hk⟩) = .error e →
      (i + k + 1, e) ∈ warningsOf (scanLines lines n i).2 := by
  induction lines with
  | nil => intro i k hk; exact absurd hk (by simp)
  | cons line rest ih =>
    intro i k hk hn hp
    have h : ¬ ((i : Int) ≥ n) := by
      push_cast at hn
      omega
    cases k with
    | zero =>
      simp only [List.get] at hp
      simp [scanLines, h, hp]
    | succ k2 =>
      have heq : i + (k2 + 1) = (i + 1) + k2 := by omega
      rw [heq]
      have hn2 : (((i + 1) + k2 : Nat) : Int) < n := by
        push_cast at hn ⊢
        omega
      have hk2 : k2 < rest.length := by
        simp at hk
        omega
      have hmem := ih (i + 1) k2 hk2 hn2 (by simpa using hp)
      cases hp2 : parseLine line with
      | error e2 => simp [scanLines, h, hp2, hmem]
      | ok v => simp [scanLines, h, hp2, hmem]

/-- A malformed examined line produces exactly one warning bearing its
1-based line number. -/
theorem scanLines_warning_count (lines : List String) (n : Int) (e : String) :
    ∀ (i k : Nat) (hk : k < lines.length),
      ((i + k : Nat) : Int) < n →
      parseLine (lines.get ⟨k, hk⟩) = .error e →
      (warningsOf (scanLines lines n i).2).countP (fun w => w.1 == i + k + 1) = 1 := by
  induction lines with
  | nil => intro i k hk; exact absurd hk (by simp)
  | cons line rest ih =>
    intro i k hk hn hp
    have h : ¬ ((i : Int) ≥ n) := by
      push_cast at hn
      omega
    cases k with
    | zero =>
      simp only [List.get] at hp
      have hz : (warningsOf (scanLines rest n (i + 1)).2).countP
          (fun w => w.1 == i + 0 + 1) = 0 := by
        rw [List.countP_eq_zero]
        intro w hw
        have := scanLines_warning_lb rest n (i + 1) w hw
        simp
        omega
      simp [scanLines, h, hp, List.countP_cons, hz]
    | succ k2 =>
      have heq : i + (k2 + 1) = (i + 1) + k2 := by omega
      rw [heq]
      have hn2 : (((i + 1) + k2 : Nat) : Int) < n := by
        push_cast at hn ⊢
        omega
      have hk2 : k2 < rest.length := by
        simp at hk
        omega
      have hcnt := ih (i + 1) k2 hk2 hn2 (by simpa using hp)
      cases hp2 : parseLine line with
      | error e2 =>
        simp [scanLines, h, hp2, List.countP_cons, hcnt]
        omega
      | ok v => simp [scanLines, h, hp2, hcnt]

/-- A successfully parsed examined line whose 1-based number is a multiple of
100 produces its progress message. -/
theorem scanLines_progress_mem (lines : List String) (n : Int) (v : J) :
    ∀ (i k : Nat) (hk : k < lines.length),
      ((i + k : Nat) : Int) < n →
      parseLine (lines.get ⟨k, hk⟩) = .ok v →
      (i + k + 1) % 100 = 0 →
      (i + k + 1) ∈ progressOf (scanLines lines n i).2 := by
  induction lines with
  | nil => intro i k hk; exact absurd hk (by simp)
  | cons line rest ih =>
    intro i k hk hn hp h100
    have h : ¬ ((i : Int) ≥ n) := by
      push_cast at hn
      omega
    cases k with
    | zero =>
      simp only [List.get] at hp
      simp [scanLines, h, hp, h100]
    | succ k2 =>
      have heq : i + (k2 + 1) = (i + 1) + k2 := by omega
      rw [heq] at h100 ⊢
      have hn2 : (((i + 1) + k2 : Nat) : Int) < n := by
        push_cast at hn ⊢
        omega
      have hk2 : k2 < rest.length := by
        simp at hk
        omega
      have hmem := ih (i + 1) k2 hk2 hn2 (by simpa using hp) h100
      cases hp2 : parseLine line with
      | error e2 => simp [scanLines, h, hp2, hmem]
      | ok v2 =>
        by_cases hc : (i + 1) % 100 = 0 <;>
          simp [scanLines, h, hp2, hmem, hc]

/-- Every warning comes from a malformed examined line, and bears that line's
original 1-based number and its parse error. -/
theorem scanLines_warning_inv (lines : List String) (n : Int) :
    ∀ i : Nat, ∀ w ∈ warningsOf (scanLines lines n i).2,
      ∃ (k : Nat) (hk : k < lines.length), w.1 = i + k + 1 ∧ ((i + k : Nat) : Int) < n
        ∧ parseLine (lines.get ⟨k, hk⟩) = .error w.2 := by
  induction lines with
  | nil => intro i w hw; simp [scanLines] at hw
  | cons line rest ih =>
    intro i w hw
    by_cases h : (i : Int) ≥ n
    · simp [scanLines, h] at hw
    · cases hp : parseLine line with
      | error e =>
        simp [scanLines, h, hp] at hw
        rcases hw with h1 | h1
        · refine ⟨0, by simp, by simp [h1], by push_cast; omega, ?_⟩
          simp only [List.get]
          rw [hp, h1]
        · obtain ⟨k, hk, hw1, hklt, hpk⟩ := ih (i + 1) w h1
          refine ⟨k + 1, by simp; omega, by omega, ?_, by simpa using hpk⟩
          push_cast at hklt ⊢
          omega
      | ok v =>
        simp [scanLines, h, hp] at hw
        obtain ⟨k, hk, hw1, hklt, hpk⟩ := ih (i + 1) w hw
        refine ⟨k + 1, by simp; omega, by omega, ?_, by simpa using hpk⟩
        push_cast at hklt ⊢
        omega

/-- A pair reported among the warnings corresponds to a `warning` event. -/
theorem warning_event_of_mem (evs : List Event) (k : Nat) (e : String) :
    (k, e) ∈ warningsOf evs → Event.warning k e ∈ evs := by
  intro h
  rw [warningsOf, List.mem_filterMap] at h
  obtain ⟨ev, hev, hf⟩ := h
  cases ev <;> simp_all

/-- A count reported among the progress messages corresponds to a
`progress` event. -/
theorem progress_event_of_mem (evs : List Event) (k : Nat) :
    k ∈ progressOf evs → Event.progress k ∈ evs := by
  intro h
  rw [progressOf, List.mem_filterMap] at h
  obtain ⟨ev, hev, hf⟩ := h
  cases ev <;> simp_all

/-- `filterMap` has as many hits as elements satisfying the partial map. -/
theorem length_filterMap_eq_countP {α β : Type} (f : α → Option β) :
    ∀ l : List α, (l.filterMap f).length = l.countP fun a => (f a).isSome := by
  intro l
  induction l with
  | nil => simp
  | cons a t ih => cases hfa : f a <;> simp [List.filterMap_cons, hfa, List.countP_cons, ih]

/-- Indexing inside a prefix is indexing the list itself. -/
theorem take_getElem_lt {α : Type} :
    ∀ (l : List α) (k i : Nat), i < k → (l.take k)[i]? = l[i]? := by
  intro l
  induction l with
  | nil => simp
  | cons a t ih =>
    intro k i hik
    cases k with
    | zero => omega
    | succ k2 =>
      cases i with
      | zero => simp
      | succ i2 => simp [List.take_succ_cons, ih k2 i2 (by omega)]

/-- The hit produced by position `p` of the input sits at the position in the
`filterMap` output given by the number of hits before `p`. -/
theorem filterMap_getElem_at {α β : Type} (f : α → Option β) :
    ∀ (l : List α) (p : Nat) (x : α) (v : β),
      l[p]? = some x → f x = some v →
      (l.filterMap f)[((l.take p).filterMap f).length]? = some v := by
  intro l
  induction l with
  | nil => intro p x v h; simp at h
  | cons a t ih =>
    intro p x v hx hv
    cases p with
    | zero =>
      simp at hx
      subst hx
      simp [List.filterMap_cons, hv]
    | succ q =>
      simp at hx
      cases hfa : f a with
      | none => simpa [List.take_succ_cons, List.filterMap_cons, hfa] using ih q x v hx hv
      | some w => simpa [List.take_succ_cons, List.filterMap_cons, hfa] using ih q x v hx hv

/-- A hit strictly inside a longer prefix makes the longer prefix's hit count
strictly larger. -/
theorem filterMap_take_len_mono {α β : Type} (f : α → Option β) :
    ∀ (l : List α) (p1 p2 : Nat) (x : α) (v : β),
      p1 < p2 → l[p1]? = some x → f x = some v →
      ((l.take p1).filterMap f).length < ((l.take p2).filterMap f).length := by
  intro l
  induction l with
  | nil => intro p1 p2 x v h12 hx; simp at hx
  | cons a t ih =>
    intro p1 p2 x v h12 hx hv
    cases p1 with
    | zero =>
      simp at hx
      subst hx
      cases p2 with
      | zero => omega
      | succ q => simp [List.take_succ_cons, List.filterMap_cons, hv]
    | succ q1 =>
      cases p2 with
      | zero => omega
      | succ q2 =>
        simp at hx
        have hlt := ih q1 q2 x v (by omega) hx hv
        cases hfa : f a <;>
          simp [List.take_succ_cons, List.filterMap_cons, hfa] <;> omega

/-- `str.strip()` of an all-whitespace (or empty) line is the empty string. -/
theorem pyStrip_of_all_space (s : String) (h : s.toList.all isPySpace) :
    pyStrip s = "" := by
  have h1 : s.toList.dropWhile isPySpace = [] := by
    rw [List.dropWhile_eq_nil_iff]
    intro x hx
    exact List.all_eq_true.mp h x hx
  rw [pyStrip, h1]
  rfl

/-- C1: for every input file and every non-negative `n`, the output array
written by the extractor is exactly the list of JSON values of the lines among
the first `n` that parse successfully, in order, and the written count equals
the number of such successfully-parsed lines. -/
theorem C1_sample_is_parsed_prefix (lines : List String) (n : Int) (h : 0 ≤ n) :
    (extract_first_n_objects lines n).fileOut = J.arr (successValues lines n)
    ∧ (extract_first_n_objects lines n).objects = successValues lines n
    ∧ (extract_first_n_objects lines n).objects.length
      = (lines.take n.toNat).countP fun l => ((parseLine l).toOption).isSome := by
  have hobj : (extract_first_n_objects lines n).objects = successValues lines n := by
    have hf := scanLines_fst lines n 0
    simp at hf
    simpa [extract_first_n_objects, successValues] using hf
  refine ⟨?_, hobj, ?_⟩
  · rw [show (extract_first_n_objects lines n).fileOut
        = J.arr (extract_first_n_objects lines n).objects from rfl, hobj]
  · rw [hobj, successValues, length_filterMap_eq_countP]

theorem C1_sample_is_parsed_prefix_witness :
    ((0 : Int) ≤ 2)
    ∧ ((extract_first_n_objects ["1", "bad", "2"] 2).fileOut
          = J.arr (successValues ["1", "bad", "2"] 2)
      ∧ (extract_first_n_objects ["1", "bad", "2"] 2).objects
          = successValues ["1", "bad", "2"] 2
      ∧ (extract_first_n_objects ["1", "bad", "2"] 2).objects.length
          = (["1", "bad", "2"].take (2 : Int).toNat).countP
              fun l => ((parseLine l).toOption).isSome) :=
  ⟨by decide, C1_sample_is_parsed_prefix ["1", "bad", "2"] 2 (by decide)⟩

/-- C2 as stated is false on the code: for an input of 100 lines where the
100th is malformed (here: all lines empty, `n = 100`), the 100th line is
examined (its warning is emitted) but no progress message is emitted for it,
because the `continue` in the except-branch skips the progress check. -/
theorem C2_counterexample :
    Event.warning 100 "Expecting value"
        ∈ (extract_first_n_objects (List.replicate 100 "") 100).events
    ∧ Event.progress 100 ∉ (extract_first_n_objects (List.replicate 100 "") 100).events := by
  decide

/-- C2 amended: a progress message is emitted for a line whose 1-based index
`i + 1` is a positive multiple of 100 whenever that line parses successfully
(on parse failure the `continue` skips the progress check); the emitted count
`i + 1` still counts all lines examined, malformed ones included. -/
theorem C2_progress_amended (lines : List String) (n : Int) (v : J) (i : Nat)
    (hi : i < lines.length) (hn : (i : Int) < n)
    (hp : parseLine (lines.get ⟨i, hi⟩) = .ok v)
    (h100 : (i + 1) % 100 = 0) :
    Event.progress (i + 1) ∈ (extract_first_n_objects lines n).events := by
  have hmem := scanLines_progress_mem lines n v 0 i hi
    (by simpa using hn) (by simpa using hp) (by simpa using h100)
  have h2 : Event.progress (i + 1) ∈ (scanLines lines n 0).2 :=
    progress_event_of_mem _ _ (by simpa using hmem)
  show Event.progress (i + 1)
      ∈ Event.start n :: ((scanLines lines n 0).2 ++ _)
  exact List.mem_cons_of_mem _ (List.mem_append_left _ h2)

theorem C2_progress_amended_witness :
    (99 < (List.replicate 100 "1").length
      ∧ ((99 : Nat) : Int) < 100
      ∧ (99 + 1) % 100 = 0)
    ∧ Event.progress (99 + 1)
        ∈ (extract_first_n_objects (List.replicate 100 "1") 100).events :=
  ⟨⟨by decide, by decide, by decide⟩,
    C2_progress_amended (List.replicate 100 "1") 100 (J.num "1") 99
      (by decide) (by decide) (by rfl) (by decide)⟩

/-- C3 as stated is false on the code: the body of `extract_first_n_objects`
ends without a `return` statement, so the function returns `None`, not the
written count (here the output array has 1 element but the return is `None`). -/
theorem C3_counterexample :
    ¬ ((extract_first_n_objects ["1"] 1).ret
        = some (extract_first_n_objects ["1"] 1).objects.length) := by
  decide

/-- C3 amended: the function returns `None`; the count of records actually
written (the Sample's size, which is also the output array's length) is
reported instead in the `Writing ...`/`Done! ...` messages. -/
theorem C3_amended_return (lines : List String) (n : Int) :
    (extract_first_n_objects lines n).ret = none
    ∧ Event.done (extract_first_n_objects lines n).objects.length
        ∈ (extract_first_n_objects lines n).events
    ∧ Event.writing (extract_first_n_objects lines n).objects.length
        ∈ (extract_first_n_objects lines n).events
    ∧ (extract_first_n_objects lines n).fileOut
        = J.arr (extract_first_n_objects lines n).objects := by
  refine ⟨rfl, ?_, ?_, rfl⟩ <;> simp [extract_first_n_objects]

/-- C4: the `n`-line cutoff counts lines read, not lines parsed: the number of
lines examined (appended objects plus warnings, each examined line yielding
exactly one of the two) is `min n (file length)` regardless of how many lines
parsed, and the scan never looks beyond the first `n` lines. -/
theorem C4_cutoff_counts_lines_read (lines : List String) (n : Int) :
    (extract_first_n_objects lines n).objects.length
        + (warningsOf (extract_first_n_objects lines n).events).length
      = min n.toNat lines.length
    ∧ extract_first_n_objects (lines.take n.toNat) n = extract_first_n_objects lines n := by
  constructor
  · have hc := scanLines_count lines n 0
    simp at hc
    simpa [extract_first_n_objects] using hc
  · have ht := scanLines_take lines n 0
    simp at ht
    simp [extract_first_n_objects, ht]

/-- The Sample at completion is the filter-map of the first `n` lines. -/
theorem extract_objects_eq (lines : List String) (n : Int) :
    (extract_first_n_objects lines n).objects = successValues lines n := by
  have hf := scanLines_fst lines n 0
  simp at hf
  simpa [extract_first_n_objects, successValues] using hf

/-- C5: order preservation. For two lines at positions `p1 < p2`, both below
the cutoff and both parsing successfully, the corresponding entries of the
output array appear in the same relative order. -/
theorem C5_order_preservation (lines : List String) (n : Int) (p1 p2 : Nat)
    (l1 l2 : String) (v1 v2 : J)
    (h12 : p1 < p2) (h2n : p2 < n.toNat)
    (hg1 : lines[p1]? = some l1) (hg2 : lines[p2]? = some l2)
    (hp1 : parseLine l1 = .ok v1) (hp2 : parseLine l2 = .ok v2) :
    ∃ j1 j2 : Nat, j1 < j2
      ∧ (extract_first_n_objects lines n).objects[j1]? = some v1
      ∧ (extract_first_n_objects lines n).objects[j2]? = some v2 := by
  have hobj : (extract_first_n_objects lines n).objects
      = (lines.take n.toNat).filterMap fun l => (parseLine l).toOption :=
    extract_objects_eq lines n
  have hg1' : (lines.take n.toNat)[p1]? = some l1 := by
    rw [take_getElem_lt lines n.toNat p1 (by omega)]
    exact hg1
  have hg2' : (lines.take n.toNat)[p2]? = some l2 := by
    rw [take_getElem_lt lines n.toNat p2 h2n]
    exact hg2
  have hf1 : (fun l => (parseLine l).toOption) l1 = some v1 := by
    simp [hp1, Except.toOption]
  have hf2 : (fun l => (parseLine l).toOption) l2 = some v2 := by
    simp [hp2, Except.toOption]
  refine ⟨(((lines.take n.toNat).take p1).filterMap fun l => (parseLine l).toOption).length,
    (((lines.take n.toNat).take p2).filterMap fun l => (parseLine l).toOption).length,
    ?_, ?_, ?_⟩
  · exact filterMap_take_len_mono _ (lines.take n.toNat) p1 p2 l1 v1 h12 hg1' hf1
  · rw [hobj]
    exact filterMap_getElem_at _ (lines.take n.toNat) p1 l1 v1 hg1' hf1
  · rw [hobj]
    exact filterMap_getElem_at _ (lines.take n.toNat) p2 l2 v2 hg2' hf2

theorem C5_order_preservation_witness :
    (0 < 2 ∧ 2 < (3 : Int).toNat
      ∧ (["1", "x", "2"] : List String)[0]? = some "1"
      ∧ (["1", "x", "2"] : List String)[2]? = some "2")
    ∧ ∃ j1 j2 : Nat, j1 < j2
      ∧ (extract_first_n_objects ["1", "x", "2"] 3).objects[j1]? = some (J.num "1")
      ∧ (extract_first_n_objects ["1", "x", "2"] 3).objects[j2]? = some (J.num "2") :=
  ⟨⟨by decide, by decide, by decide, by decide⟩,
    C5_order_preservation ["1", "x", "2"] 3 0 2 "1" "2" (J.num "1") (J.num "2")
      (by decide) (by decide) (by decide) (by decide) (by rfl) (by rfl)⟩

/-- C6: every malformed line among the first `n` produces exactly one warning,
carrying that line's 1-based number and the parse error; nothing is appended
for it and the scan continues; warnings always carry original (unshifted)
line numbers, and a warning arises only from a malformed examined line. -/
theorem C6_warning_per_malformed (lines : List String) (n : Int) (i : Nat) (e : String)
    (hi : i < lines.length) (hn : (i : Int) < n)
    (hp : parseLine (lines.get ⟨i, hi⟩) = .error e) :
    Event.warning (i + 1) e ∈ (extract_first_n_objects lines n).events
    ∧ (warningsOf (extract_first_n_objects lines n).events).countP
        (fun w => w.1 == i + 1) = 1
    ∧ (extract_first_n_objects lines n).objects = successValues lines n
    ∧ (∀ w ∈ warningsOf (extract_first_n_objects lines n).events,
        ∃ (k : Nat) (hk : k < lines.length), w.1 = k + 1 ∧ ((k : Nat) : Int) < n
          ∧ parseLine (lines.get ⟨k, hk⟩) = .error w.2) := by
  have hwarnEq : warningsOf (extract_first_n_objects lines n).events
      = warningsOf (scanLines lines n 0).2 := by
    simp [extract_first_n_objects]
  have hmem := scanLines_warning_mem lines n e 0 i hi (by simpa using hn) hp
  refine ⟨?_, ?_, extract_objects_eq lines n, ?_⟩
  · have h2 : Event.warning (i + 1) e ∈ (scanLines lines n 0).2 :=
      warning_event_of_mem _ _ _ (by simpa using hmem)
    show _ ∈ Event.start n :: ((scanLines lines n 0).2 ++ _)
    exact List.mem_cons_of_mem _ (List.mem_append_left _ h2)
  · rw [hwarnEq]
    have hc := scanLines_warning_count lines n e 0 i hi (by simpa using hn) hp
    simpa using hc
  · intro w hw
    rw [hwarnEq] at hw
    obtain ⟨k, hk, h1, h2, h3⟩ := scanLines_warning_inv lines n 0 w hw
    exact ⟨k, hk, by omega, by simpa using h2, h3⟩

theorem C6_warning_per_malformed_witness :
    (1 < (["1", "bad", "2"] : List String).length ∧ ((1 : Nat) : Int) < 3)
    ∧ (Event.warning (1 + 1) "Expecting value"
        ∈ (extract_first_n_objects ["1", "bad", "2"] 3).events
      ∧ (warningsOf (extract_first_n_objects ["1", "bad", "2"] 3).events).countP
          (fun w => w.1 == 1 + 1) = 1
      ∧ (extract_first_n_objects ["1", "bad", "2"] 3).objects
          = successValues ["1", "bad", "2"] 3
      ∧ (∀ w ∈ warningsOf (extract_first_n_objects ["1", "bad", "2"] 3).events,
          ∃ (k : Nat) (hk : k < (["1", "bad", "2"] : List String).length),
            w.1 = k + 1 ∧ ((k : Nat) : Int) < 3
            ∧ parseLine ((["1", "bad", "2"] : List String).get ⟨k, hk⟩) = .error w.2)) :=
  ⟨⟨by decide, by decide⟩,
    C6_warning_per_malformed ["1", "bad", "2"] 3 1 "Expecting value"
      (by decide) (by decide) (by rfl)⟩

/-- C7: for every `n ≤ 0` (including `n = 0`) and every input, the scan breaks
on its first iteration: the Sample is empty, the output file holds the empty
array, no warning or progress message is emitted, and nothing is parsed. -/
theorem C7_nonpositive_n (lines : List String) (n : Int) (h : n ≤ 0) :
    extract_first_n_objects lines n
      = { objects := [],
          events := [Event.start n, Event.writing 0, Event.done 0],
          fileOut := J.arr [], ret := none } := by
  have h0 : ((0 : Nat) : Int) ≥ n := by simpa using h
  have hscan : scanLines lines n 0 = ([], []) := by
    cases lines with
    | nil => rfl
    | cons a t =>
      simp [scanLines, h0]
      intro hlt
      exact absurd hlt (by omega)
  simp [extract_first_n_objects, hscan]

theorem C7_nonpositive_n_witness :
    ((0 : Int) ≤ 0)
    ∧ extract_first_n_objects ["1", "2"] 0
      = { objects := [],
          events := [Event.start 0, Event.writing 0, Event.done 0],
          fileOut := J.arr [], ret := none } :=
  ⟨by decide, C7_nonpositive_n ["1", "2"] 0 (by decide)⟩

/-- C8: when the input file cannot be opened, the error propagates (the run's
result is the exception) and the write stage is never reached: the output file
is neither opened nor written, and its prior state is unchanged. -/
theorem C8_read_failure_no_write (n : Int) (prev : Option J) :
    (runExtract none n).1 = Except.error ()
    ∧ IOAct.openOutput ∉ (runExtract none n).2
    ∧ (∀ v : J, IOAct.writeOutput v ∉ (runExtract none n).2)
    ∧ outputFileAfter prev none n = prev := by
  refine ⟨rfl, ?_, ?_, rfl⟩
  · simp [runExtract]
  · intro v
    simp [runExtract]

/-- C9: the output file parses back (value-level) as an array whose length is
the written count and whose `k`-th element is the parsed value of the `k`-th
successfully-parsed input line among the first `n`. -/
theorem C9_roundtrip (lines : List String) (n : Int) (h : 0 ≤ n) :
    ∃ elems : List J,
      (extract_first_n_objects lines n).fileOut = J.arr elems
      ∧ elems.length = (extract_first_n_objects lines n).objects.length
      ∧ ∀ k : Nat, elems[k]? = (successValues lines n)[k]? := by
  refine ⟨(extract_first_n_objects lines n).objects, rfl, rfl, ?_⟩
  intro k
  rw [extract_objects_eq lines n]

theorem C9_roundtrip_witness :
    ((0 : Int) ≤ 3)
    ∧ ∃ elems : List J,
      (extract_first_n_objects ["7", "oops", "[true]"] 3).fileOut = J.arr elems
      ∧ elems.length = (extract_first_n_objects ["7", "oops", "[true]"] 3).objects.length
      ∧ ∀ k : Nat, elems[k]? = (successValues ["7", "oops", "[true]"] 3)[k]? :=
  ⟨by decide, C9_roundtrip ["7", "oops", "[true]"] 3 (by decide)⟩

/-- C10: an empty or whitespace-only line among the first `n` strips to the
empty string, which fails JSON parsing with "Expecting value"; its warning is
emitted with its 1-based number, nothing is appended for it, and it still
counts toward the `n`-line cutoff. -/
theorem C10_blank_line_is_parse_failure (lines : List String) (n : Int) (i : Nat)
    (hi : i < lines.length) (hn : (i : Int) < n)
    (hws : (lines.get ⟨i, hi⟩).toList.all isPySpace) :
    pyStrip (lines.get ⟨i, hi⟩) = ""
    ∧ parseLine (lines.get ⟨i, hi⟩) = .error "Expecting value"
    ∧ Event.warning (i + 1) "Expecting value"
        ∈ (extract_first_n_objects lines n).events
    ∧ (extract_first_n_objects lines n).objects = successValues lines n
    ∧ (extract_first_n_objects lines n).objects.length
        + (warningsOf (extract_first_n_objects lines n).events).length
      = min n.toNat lines.length := by
  have hstrip := pyStrip_of_all_space _ hws
  have hparse : parseLine (lines.get ⟨i, hi⟩) = .error "Expecting value" := by
    rw [parseLine, hstrip]
    rfl
  refine ⟨hstrip, hparse, ?_, extract_objects_eq lines n, ?_⟩
  · have hmem := scanLines_warning_mem lines n "Expecting value" 0 i hi
      (by simpa using hn) hparse
    have h2 : Event.warning (i + 1) "Expecting value" ∈ (scanLines lines n 0).2 :=
      warning_event_of_mem _ _ _ (by simpa using hmem)
    show _ ∈ Event.start n :: ((scanLines lines n 0).2 ++ _)
    exact List.mem_cons_of_mem _ (List.mem_append_left _ h2)
  · have hc := scanLines_count lines n 0
    simp at hc
    simpa [extract_first_n_objects] using hc

theorem C10_blank_line_is_parse_failure_witness :
    (0 < ([" ", "1"] : List String).length ∧ ((0 : Nat) : Int) < 2
      ∧ ((([" ", "1"] : List String).get ⟨0, by decide⟩).toList.all isPySpace))
    ∧ (pyStrip (([" ", "1"] : List String).get ⟨0, by decide⟩) = ""
      ∧ parseLine (([" ", "1"] : List String).get ⟨0, by decide⟩) = .error "Expecting value"
      ∧ Event.warning (0 + 1) "Expecting value"
          ∈ (extract_first_n_objects [" ", "1"] 2).events
      ∧ (extract_first_n_objects [" ", "1"] 2).objects = successValues [" ", "1"] 2
      ∧ (extract_first_n_objects [" ", "1"] 2).objects.length
          + (warningsOf (extract_first_n_objects [" ", "1"] 2).events).length
        = min (2 : Int).toNat ([" ", "1"] : List String).length) :=
  ⟨⟨by decide, by decide, by decide⟩,
    C10_blank_line_is_parse_failure [" ", "1"] 2 0 (by decide) (by decide) (by decide)⟩

example : parseLine "1" = .ok (J.num "1") := by rfl
example : parseLine "" = .error "Expecting value" := by rfl
example : parseLine " \x7b\"a\": [1, true, null]\x7d " =
    .ok (J.obj [("a", J.arr [J.num "1", J.bool true, J.null])]) := by rfl
example : parseLine "\x7bbad json" = .error "Expecting property name enclosed in double quotes" := by rfl
example : parseLine "[1, 2" = .error "Expecting comma delimiter" := by rfl
example : (scanLines ["1", "bad", "2"] 3 0).1 = [J.num "1", J.num "2"] := by rfl
example : warningsOf (scanLines ["1", "bad", "2"] 3 0).2 =
    [(2, "Expecting value")] := by rfl
example : (extract_first_n_objects ["1", "2"] 0).objects = [] := by rfl
